import Mathlib

/-!
Verification development for the 1Config configuration engine
(`oneconfig/yaml.py`, `oneconfig/formatter.py`).

The Python code is shallowly embedded: the configuration tree built by the
YAML loader becomes the inductive type `Value` (Python dicts are ordered
association lists over `MKey`, since a dict can hold both string keys coming
from YAML mappings and integer keys coming from bracket path segments);
fallible operations return `Except PyErr` or `Option`, where a `PyErr`
constructor stands for the Python exception raised at that point.
In-place mutation of the tree is rendered functionally: an operation that
mutates a subtree returns the updated tree, and the resolver - whose
formatting step reads the *whole, partially mutated* document root - is
modelled with an explicit context function that rebuilds the current root
from the subtree being visited (see `resolveNode`).
-/

set_option maxHeartbeats 1000000

namespace OneConfig

/-- Keys of a Python dict as used by the configuration tree: YAML mappings
and identifier path segments store string keys, while a bracketed integer
path segment assigned into a dict stores an integer key. The two never
compare equal, exactly as in Python where `d["0"]` and `d[0]` are distinct. -/
inductive MKey where
  | s (k : String)
  | i (n : Int)
deriving DecidableEq, Repr

/-- Python exceptions (and typed error outcomes) the modelled code can raise.
`unresolved t` is the `KeyError('The value pattern "t" could not be
resolved')` raised by `ExtendedArgument.__get__`; `notFoundValueError p` is
the `ValueError('"p" not found in the config')` raised by
`Configuration.__call__`; `representerError` is pyyaml's
`RepresenterError("cannot represent an object")`; `unsupportedSpec` marks
the one model limitation: non-empty format specs (never used by the
repository's templates) are not given semantics. -/
inductive PyErr where
  | keyError
  | indexError
  | typeError
  | valueError
  | attributeError
  | unresolved (template : String)
  | notFoundValueError (path : String)
  | representerError
  | constructorError (tag : String)
  | unsupportedSpec
deriving DecidableEq, Repr

mutual
/-- A node of the configuration tree as produced by `ConfigYamlLoader`:
Python ints, strings, tagged domain values (pandas Timestamp/Timedelta,
kept abstract as their source text), `ExtendedArgument` reference nodes
(holding the unresolved template string), dicts and lists. -/
inductive Value where
  | vint (n : Int)
  | vstr (s : String)
  | vtyped (tag : String) (payload : String)
  | ref (template : String)
  | map (es : Entries)
  | seq (xs : Values)

/-- Entries of a Python dict, in insertion order. -/
inductive Entries where
  | nil
  | cons (k : MKey) (v : Value) (rest : Entries)

/-- Elements of a Python list, in order. -/
inductive Values where
  | nil
  | cons (v : Value) (rest : Values)
end

/-- Python dict lookup `d[k]` (first entry with the given key). -/
def mapFind : Entries → MKey → Option Value
  | .nil, _ => none
  | .cons k v rest, k' => if k = k' then some v else mapFind rest k'

/-- Python dict assignment `d[k] = v`: replaces the value of an existing key
in place (keeping insertion order) or appends a new key at the end. -/
def mapSet : Entries → MKey → Value → Entries
  | .nil, k, v => .cons k v .nil
  | .cons k' v' rest, k, v =>
    if k' = k then .cons k v rest else .cons k' v' (mapSet rest k v)

/-- Appends two entry lists. -/
def eappend : Entries → Entries → Entries
  | .nil, b => b
  | .cons k v r, b => .cons k v (eappend r b)

/-- Appends two element lists. -/
def vappend : Values → Values → Values
  | .nil, b => b
  | .cons v r, b => .cons v (vappend r b)

/-- Length of a Python list. -/
def vlen : Values → Nat
  | .nil => 0
  | .cons _ r => vlen r + 1

/-- Zero based element access into a Python list. -/
def vget : Values → Nat → Option Value
  | .nil, _ => none
  | .cons v _, 0 => some v
  | .cons _ r, n + 1 => vget r n

/-- Zero based element replacement in a Python list (no-op past the end;
callers only invoke it with an in-range index). -/
def vset : Values → Nat → Value → Values
  | .nil, _, _ => .nil
  | .cons _ r, 0, v => .cons v r
  | .cons w r, n + 1, v => .cons w (vset r n v)

/-- Converts a `Values` list to a Lean list. -/
def toListV : Values → List Value
  | .nil => []
  | .cons v r => v :: toListV r

/-- Python sequence index normalisation: a negative index counts from the
end; the result is `none` exactly when Python raises `IndexError`. -/
def normIdx (i : Int) (n : Nat) : Option Nat :=
  let j : Int := if i < 0 then i + n else i
  if 0 ≤ j ∧ j < (n : Int) then some j.toNat else none

-- Path expressions --------------------------------------------------------

/-- One recognised segment of a path expression: a map-key identifier or a
bracketed integer index. -/
inductive Seg where
  | key (k : String)
  | idx (i : Int)
deriving DecidableEq, Repr

/-- First character of the identifier alternative `[A-Z_]` of the path
regex, under `re.IGNORECASE` (ASCII letters or underscore). -/
def isIdentStart (c : Char) : Bool :=
  ('A' ≤ c && c ≤ 'Z') || ('a' ≤ c && c ≤ 'z') || c = '_'

/-- Continuation characters `[A-Z_0-9]*` of the identifier alternative,
under `re.IGNORECASE`. -/
def isIdentChar (c : Char) : Bool :=
  isIdentStart c || c.isDigit

/-- Greedily takes the identifier continuation characters. -/
def takeIdent : List Char → (List Char × List Char)
  | [] => ([], [])
  | c :: cs =>
    if isIdentChar c then
      let (a, b) := takeIdent cs
      (c :: a, b)
    else ([], c :: cs)

/-- Greedily takes decimal digits. -/
def takeDigits : List Char → (List Char × List Char)
  | [] => ([], [])
  | c :: cs =>
    if c.isDigit then
      let (a, b) := takeDigits cs
      (c :: a, b)
    else ([], c :: cs)

/-- Numeric value of a digit string. -/
def digitsToNat (ds : List Char) : Nat :=
  ds.foldl (fun n c => n * 10 + (c.toNat - '0'.toNat)) 0

/-- Attempts the bracket alternative `\[(-?[0-9]+)\][.|$]` of the path regex
at the position just after an opening `[`: an optional minus sign, one or
more digits, the closing `]`, and then one of the literal characters `.`,
`|`, `$` (a character class, *not* an end anchor), which is consumed as part
of the match. Returns the parsed index and the rest of the input, or `none`
if the alternative does not match here. -/
def tryIdx (cs : List Char) : Option (Int × List Char) :=
  let (neg, cs1) := match cs with
    | '-' :: r => (true, r)
    | _ => (false, cs)
  let (ds, cs2) := takeDigits cs1
  match ds with
  | [] => none
  | _ =>
    match cs2 with
    | ']' :: d :: rest =>
      if d = '.' || d = '|' || d = '$' then
        let n : Int := digitsToNat ds
        some (if neg then -n else n, rest)
      else none
    | _ => none

/-- The scan loop of `re.findall` for the pattern
`([A-Z_][A-Z_0-9]*)|\[(-?[0-9]+)\][.|$]` with `re.IGNORECASE`: at each
position try the identifier alternative, then the bracket alternative, and
otherwise advance one character. The fuel argument bounds the recursion and
is sufficient because every step consumes at least one character. -/
def scanPath : Nat → List Char → List Seg
  | 0, _ => []
  | _, [] => []
  | fuel + 1, c :: cs =>
    if isIdentStart c then
      let (a, rest) := takeIdent cs
      .key (String.mk (c :: a)) :: scanPath fuel rest
    else if c = '[' then
      match tryIdx cs with
      | some (i, rest) => .idx i :: scanPath fuel rest
      | none => scanPath fuel cs
    else scanPath fuel cs

/-- Segments recognised in a path expression, as computed by the
`re.findall` call shared by `Configuration.__call__` and
`Configuration.set`. -/
def parsePath (s : String) : List Seg :=
  scanPath s.length s.data

-- Path addressing ----------------------------------------------------------

/-- Outcome of one Python subscript `node[segment]`: a value, an uncaught-by
-default `KeyError`/`IndexError` (`notFound`), or a `TypeError`
(`typeErr`). A string key applied to a list, or any subscript applied to an
int / `ExtendedArgument` / tagged value, raises `TypeError`; a Python string
is subscriptable by integers (yielding a one character string). -/
inductive LookupRes where
  | found (v : Value)
  | notFound
  | typeErr

/-- One subscript step `node[key-or-index]` of the path walk. -/
def lookup1 : Value → Seg → LookupRes
  | .map es, .key k =>
    match mapFind es (.s k) with
    | some v => .found v
    | none => .notFound
  | .map es, .idx i =>
    match mapFind es (.i i) with
    | some v => .found v
    | none => .notFound
  | .seq xs, .idx i =>
    match normIdx i (vlen xs) with
    | some j =>
      match vget xs j with
      | some v => .found v
      | none => .notFound
    | none => .notFound
  | .seq _, .key _ => .typeErr
  | .vstr s, .idx i =>
    match normIdx i s.length with
    | some j =>
      match s.data.get? j with
      | some c => .found (.vstr (String.mk [c]))
      | none => .notFound
    | none => .notFound
  | .vstr _, .key _ => .typeErr
  | _, _ => .typeErr

/-- The walk of `Configuration.__call__` over the recognised segments,
aborting at the first failing subscript. -/
def getAux : Value → List Seg → LookupRes
  | node, [] => .found node
  | node, sgm :: rest =>
    match lookup1 node sgm with
    | .found v => getAux v rest
    | .notFound => .notFound
    | .typeErr => .typeErr

/-- `Configuration.__call__(path)` with no default supplied: a caught
`KeyError`/`IndexError` becomes `ValueError('"path" not found in the
config')`; a `TypeError` propagates uncaught. -/
def configGet (root : Value) (path : String) : Except PyErr Value :=
  match getAux root (parsePath path) with
  | .found v => .ok v
  | .notFound => .error (.notFoundValueError path)
  | .typeErr => .error .typeError

/-- `Configuration.__call__(path, default)` with a default supplied: a
caught `KeyError`/`IndexError` returns the default; a `TypeError` still
propagates uncaught. -/
def configGetD (root : Value) (path : String) (d : Value) : Except PyErr Value :=
  match getAux root (parsePath path) with
  | .found v => .ok v
  | .notFound => .ok d
  | .typeErr => .error .typeError

/-- The dict key written by a path segment in `Configuration.set`
(`match[0] or int(match[1])`). -/
def segKey : Seg → MKey
  | .key k => .s k
  | .idx i => .i i

/-- Python assignment `node[segment] = v`: always succeeds on a dict
(inserting or overwriting, with either key kind), succeeds on a list only
for an in-range (possibly negative) index, and raises `TypeError` (`none`)
on strings, ints, tagged values and `ExtendedArgument`s. -/
def assign1 : Value → Seg → Value → Option Value
  | .map es, sgm, v => some (.map (mapSet es (segKey sgm) v))
  | .seq xs, .idx i, v =>
    match normIdx i (vlen xs) with
    | some j => some (.seq (vset xs j v))
    | none => none
  | _, _, _ => none

/-- The walk of `Configuration.set` over the recognised segments: all
segments but the last are walked, auto-vivifying an empty dict `{}` when a
dict subscript raises `KeyError` (on a list the subsequent `node[i] = {}`
raises `IndexError` and on anything else the subscript raises `TypeError`,
both uncaught, hence `none`); the final segment is assigned, overwriting.
An empty segment list makes `matches[-1]` raise `IndexError` (`none`). -/
def setSegs : Value → List Seg → Value → Option Value
  | _, [], _ => none
  | node, [sgm], v => assign1 node sgm v
  | node, sgm :: rest, v =>
    match lookup1 node sgm with
    | .found child =>
      match setSegs child rest v with
      | some child' => assign1 node sgm child'
      | none => none
    | .notFound =>
      match node with
      | .map es =>
        match setSegs (.map .nil) rest v with
        | some child' => some (.map (mapSet es (segKey sgm) child'))
        | none => none
      | _ => none
    | .typeErr => none

/-- `Configuration.set(path, value)`. -/
def setPath (root : Value) (path : String) (v : Value) : Option Value :=
  setSegs root (parsePath path) v

-- Formatter ----------------------------------------------------------------

/-!
Model of `oneconfig/formatter.py`. The class statement there reads
`class Formatter(Formatter)` with `from string import Formatter as
BaseFormatter`; the evident intent (and the only reading under which the
class exists at all) is inheritance from the standard `string.Formatter`,
whose `vformat` drives the parsing and rendering modelled below. The
`ExtendedArgument` formatter is constructed with `dot_item_access=True` and
`from_containers=False`, so dotted segments inside a placeholder perform
item lookup and the head is looked up in the keyword arguments.
-/

/-- The opening brace character (written via its code point, as elsewhere in
this file). -/
def lbrace : Char := Char.ofNat 123

/-- The closing brace character. -/
def rbrace : Char := Char.ofNat 125

/-- A parsed token of a format string: literal text, or a replacement field
with its field name, optional conversion character and format spec. -/
inductive FTok where
  | lit (s : String)
  | field (name : String) (conv : Option Char) (spec : String)
deriving DecidableEq, Repr

/-- Takes literal characters up to the next brace. -/
def takeLit : List Char → (List Char × List Char)
  | [] => ([], [])
  | c :: cs =>
    if c = lbrace || c = rbrace then ([], c :: cs)
    else
      let (a, b) := takeLit cs
      (c :: a, b)

/-- Collects the content of a replacement field up to the matching closing
brace, tracking nested braces (which CPython permits inside the format
spec); `none` when the field is unterminated. -/
def takeField : Nat → Nat → List Char → Option (List Char × List Char)
  | _, _, [] => none
  | 0, _, _ :: _ => none
  | fuel + 1, depth, c :: cs =>
    if c = rbrace then
      if depth = 0 then some ([], cs)
      else (takeField fuel (depth - 1) cs).map (fun p => (c :: p.1, p.2))
    else if c = lbrace then
      (takeField fuel (depth + 1) cs).map (fun p => (c :: p.1, p.2))
    else
      (takeField fuel depth cs).map (fun p => (c :: p.1, p.2))

/-- Splits field content at the first `:` into field name and format spec. -/
def splitAtColon : List Char → (List Char × Option (List Char))
  | [] => ([], none)
  | c :: cs =>
    if c = ':' then ([], some cs)
    else
      let (a, b) := splitAtColon cs
      (c :: a, b)

/-- Splits the name part at the first `!` (conversion marker). -/
def splitAtBang : List Char → (List Char × Option (List Char))
  | [] => ([], none)
  | c :: cs =>
    if c = '!' then ([], some cs)
    else
      let (a, b) := splitAtBang cs
      (c :: a, b)

/-- Interprets collected field content as field name, conversion and spec;
a conversion marker must be followed by exactly one character before the
spec or the end of the field (`ValueError` otherwise, as in CPython). -/
def mkFieldTok (content : List Char) : Except PyErr FTok :=
  let (namePart, specPart) := splitAtColon content
  let spec := String.mk (specPart.getD [])
  match splitAtBang namePart with
  | (nm, none) => .ok (.field (String.mk nm) none spec)
  | (nm, some [c]) => .ok (.field (String.mk nm) (some c) spec)
  | (_, some _) => .error .valueError

/-- Parses a format string into tokens, mirroring `string.Formatter.parse`:
`{{` and `}}` are brace escapes, a lone brace is a `ValueError`. Fuel bounds
the recursion; every step consumes at least one character. -/
def parseTmplAux : Nat → List Char → Except PyErr (List FTok)
  | _, [] => .ok []
  | 0, _ :: _ => .error .valueError
  | fuel + 1, c :: cs =>
    if c = lbrace then
      match cs with
      | [] => .error .valueError
      | c2 :: cs2 =>
        if c2 = lbrace then
          match parseTmplAux fuel cs2 with
          | .ok toks => .ok (.lit "\x7b" :: toks)
          | .error e => .error e
        else
          match takeField (cs.length + 1) 0 cs with
          | none => .error .valueError
          | some (content, rest) =>
            match mkFieldTok content with
            | .error e => .error e
            | .ok tok =>
              match parseTmplAux fuel rest with
              | .ok toks => .ok (tok :: toks)
              | .error e => .error e
    else if c = rbrace then
      match cs with
      | c2 :: cs2 =>
        if c2 = rbrace then
          match parseTmplAux fuel cs2 with
          | .ok toks => .ok (.lit "\x7d" :: toks)
          | .error e => .error e
        else .error .valueError
      | [] => .error .valueError
    else
      let (a, rest) := takeLit (c :: cs)
      match parseTmplAux fuel rest with
      | .ok toks => .ok (.lit (String.mk a) :: toks)
      | .error e => .error e

/-- Parses a format string into tokens. -/
def parseTmpl (t : String) : Except PyErr (List FTok) :=
  parseTmplAux (t.data.length + 1) t.data

/-- One accessor inside a field name after the head: an attribute-style
dotted part (kept as a string) or a bracketed part, which CPython turns
into an integer when it is all digits and keeps as a string otherwise. -/
inductive Accessor where
  | astr (k : String)
  | aint (n : Nat)
deriving DecidableEq, Repr

/-- Takes characters of an attribute part, up to the next `.` or `[`. -/
def takeAttr : List Char → (List Char × List Char)
  | [] => ([], [])
  | c :: cs =>
    if c = '.' || c = '[' then ([], c :: cs)
    else
      let (a, b) := takeAttr cs
      (c :: a, b)

/-- Takes characters up to the closing `]`; `none` when it is missing. -/
def takeBrk : List Char → Option (List Char × List Char)
  | [] => none
  | c :: cs =>
    if c = ']' then some ([], cs)
    else (takeBrk cs).map (fun p => (c :: p.1, p.2))

/-- Parses the accessors of a field name after its head, mirroring
`_string.formatter_field_name_split`: an empty attribute or bracket part is
a `ValueError`, and only `.` or `[` may follow a `]`. -/
def splitFieldAux : Nat → List Char → Except PyErr (List Accessor)
  | _, [] => .ok []
  | 0, _ :: _ => .error .valueError
  | fuel + 1, c :: cs =>
    if c = '.' then
      let (a, rest) := takeAttr cs
      if a.isEmpty then .error .valueError
      else
        match splitFieldAux fuel rest with
        | .ok accs => .ok (.astr (String.mk a) :: accs)
        | .error e => .error e
    else if c = '[' then
      match takeBrk cs with
      | none => .error .valueError
      | some (a, rest) =>
        if a.isEmpty then .error .valueError
        else
          let acc := if a.all Char.isDigit then Accessor.aint (digitsToNat a) else .astr (String.mk a)
          match rest with
          | [] => .ok [acc]
          | c2 :: _ =>
            if c2 = '.' || c2 = '[' then
              match splitFieldAux fuel rest with
              | .ok accs => .ok (acc :: accs)
              | .error e => .error e
            else .error .valueError
    else .error .valueError

/-- Splits a field name into its head and accessors. -/
def splitField (cs : List Char) : Except PyErr (String × List Accessor) :=
  let (h, rest) := takeAttr cs
  match splitFieldAux (rest.length + 1) rest with
  | .ok accs => .ok (String.mk h, accs)
  | .error e => .error e

/-- Python `repr` of a dict key. -/
def reprKey : MKey → String
  | .s k => "\x27" ++ k ++ "\x27"
  | .i n => toString n

mutual
/-- Python `repr` of a tree value (string escaping inside `repr` of a
string, and the precise `repr` of pandas objects, are approximated; no
claim depends on them). `repr` of an `ExtendedArgument` is exactly its
`__repr__`. -/
def pyRepr : Value → String
  | .vint n => toString n
  | .vstr s => "\x27" ++ s ++ "\x27"
  | .vtyped tag p => tag.drop 1 ++ "(\x27" ++ p ++ "\x27)"
  | .ref t => "ExtendedArgument(\x27" ++ t ++ "\x27)"
  | .map es => "\x7b" ++ pyReprE es ++ "\x7d"
  | .seq xs => "[" ++ pyReprV xs ++ "]"

/-- Comma separated `repr` of dict entries. -/
def pyReprE : Entries → String
  | .nil => ""
  | .cons k v .nil => reprKey k ++ ": " ++ pyRepr v
  | .cons k v rest => reprKey k ++ ": " ++ pyRepr v ++ ", " ++ pyReprE rest

/-- Comma separated `repr` of list elements. -/
def pyReprV : Values → String
  | .nil => ""
  | .cons v .nil => pyRepr v
  | .cons v rest => pyRepr v ++ ", " ++ pyReprV rest
end

/-- Python `str.title()` (ASCII approximation: a letter is uppercased after
a non-letter and lowercased otherwise). -/
def pyTitle (s : String) : String :=
  String.mk (s.data.foldl
    (fun acc c =>
      if c.isAlpha then (acc.1 ++ [if acc.2 then c.toLower else c.toUpper], true)
      else (acc.1 ++ [c], false))
    (([] : List Char), false)).1

/-- Whether a token is a replacement field. -/
def isFieldTok : FTok → Bool
  | .field _ _ _ => true
  | .lit _ => false

/-- Concatenation of the literal parts of a token list. -/
def litConcat : List FTok → String
  | [] => ""
  | .lit s :: r => s ++ litConcat r
  | .field _ _ _ :: r => litConcat r

/-- Python `str` of an `ExtendedArgument`: `__str__` calls `__get__()` with
no instance, formatting the template against *empty* substitutions; every
replacement field therefore raises (`KeyError` from the empty keyword
arguments, or `IndexError` for positional fields, both re-raised by
`__get__` as its `KeyError`), a malformed template raises `ValueError`
(uncaught), and a field-free template yields its literal text. -/
def strEA (t : String) : Except PyErr String :=
  match parseTmpl t with
  | .error _ => .error .valueError
  | .ok toks =>
    if toks.any isFieldTok then .error .keyError
    else .ok (litConcat toks)

/-- Python `format(value, '')`, i.e. `str(value)`, for a tree value: ints
and strings render canonically, `str` of a dict or list is its `repr`, and
`str` of an unresolved `ExtendedArgument` raises (see `strEA`). `str` of a
pandas value is approximated by its source text. -/
def renderValue : Value → Except PyErr String
  | .vint n => .ok (toString n)
  | .vstr s => .ok s
  | .vtyped _ p => .ok p
  | .ref t => strEA t
  | .map es => .ok (pyRepr (.map es))
  | .seq xs => .ok (pyRepr (.seq xs))

/-- One item access `obj[i]` performed by the overridden `get_field` (with
`dot_item_access=True` every accessor is an item access). -/
def accessField : Value → Accessor → Except PyErr Value
  | .map es, .astr k =>
    match mapFind es (.s k) with
    | some v => .ok v
    | none => .error .keyError
  | .map es, .aint n =>
    match mapFind es (.i n) with
    | some v => .ok v
    | none => .error .keyError
  | .seq xs, .aint n =>
    match vget xs n with
    | some v => .ok v
    | none => .error .indexError
  | .seq _, .astr _ => .error .typeError
  | .vstr s, .aint n =>
    match s.data.get? n with
    | some c => .ok (.vstr (String.mk [c]))
    | none => .error .indexError
  | .vstr _, .astr _ => .error .typeError
  | _, _ => .error .typeError

/-- Folds the accessors of a field name over the head value. -/
def foldAccess : Value → List Accessor → Except PyErr Value
  | v, [] => .ok v
  | v, a :: rest =>
    match accessField v a with
    | .ok v' => foldAccess v' rest
    | .error e => .error e

/-- Resolves a field name against the keyword arguments, as the custom
`get_field`/`get_value` do when formatting with `**substitutions` and no
positional arguments: an empty field name auto-numbers to a positional
lookup (`IndexError` on the empty argument tuple), an all-digit head is a
positional lookup (`IndexError`), any other head is a keyword lookup
(`KeyError` when absent), and accessors are item lookups. -/
def lookupField (name : String) (es : Entries) : Except PyErr Value :=
  if name = "" then .error .indexError
  else
    match splitField name.data with
    | .error e => .error e
    | .ok (head, accs) =>
      if head.length ≠ 0 && head.data.all Char.isDigit then .error .indexError
      else
        match mapFind es (.s head) with
        | none => .error .keyError
        | some v => foldAccess v accs

/-- `format_field(value, spec)`: only the empty spec (the one the
repository's templates use) is modelled; it is `str(value)`. A non-empty
spec is mapped to the model-limitation marker `unsupportedSpec`. -/
def formatField (v : Value) (spec : String) : Except PyErr String :=
  if spec = "" then renderValue v else .error .unsupportedSpec

/-- Maps a fallible function over a list, stopping at the first error. -/
def mapExceptL {α : Type} (f : α → Except PyErr String) : List α → Except PyErr (List String)
  | [] => .ok []
  | a :: rest =>
    match f a with
    | .error e => .error e
    | .ok s =>
      match mapExceptL f rest with
      | .ok ss => .ok (s :: ss)
      | .error e => .error e

/-- Field lookup of the *builtin* `str.format` as used by
`pattern.format(n=n)` inside `list_to_str`: the only keyword is `n`; dotted
accessors are `getattr` (modelled as `attributeError` on tree values) and
bracketed ones are item lookups. -/
def builtinLookup (name : String) (nval : Value) : Except PyErr Value :=
  if name = "" then .error .indexError
  else
    match splitField name.data with
    | .error e => .error e
    | .ok (head, accs) =>
      if head.length ≠ 0 && head.data.all Char.isDigit then .error .indexError
      else if head = "n" then
        accs.foldlM
          (fun v a =>
            match a with
            | .astr _ => .error .attributeError
            | .aint n => accessField v (.aint n))
          nval
      else .error .keyError

/-- Conversions of the builtin `str.format` (`s`, `r`, `a` only). -/
def builtinConv : Option Char → Value → Except PyErr Value
  | none, v => .ok v
  | some c, v =>
    if c = 's' then
      match renderValue v with
      | .ok s => .ok (.vstr s)
      | .error e => .error e
    else if c = 'r' || c = 'a' then .ok (.vstr (pyRepr v))
    else .error .valueError

/-- Renders a token list with the builtin `str.format` semantics and the
single keyword argument `n`. -/
def renderBuiltinToks (nval : Value) : List FTok → Except PyErr String
  | [] => .ok ""
  | .lit s :: rest =>
    match renderBuiltinToks nval rest with
    | .ok t => .ok (s ++ t)
    | .error e => .error e
  | .field nm conv spec :: rest =>
    match builtinLookup nm nval with
    | .error e => .error e
    | .ok v =>
      match builtinConv conv v with
      | .error e => .error e
      | .ok v' =>
        match formatField v' spec with
        | .error e => .error e
        | .ok s =>
          match renderBuiltinToks nval rest with
          | .ok t => .ok (s ++ t)
          | .error e => .error e

/-- `pattern.format(n=value)` with the builtin formatter. -/
def fmtPattern (pattern : String) (nval : Value) : Except PyErr String :=
  match parseTmpl pattern with
  | .error e => .error e
  | .ok toks => renderBuiltinToks nval toks

/-- `list_to_str(names, pattern, sep, last_sep)` from
`oneconfig/formatter.py`: formats `names[:-1]` with the pattern, joins with
`sep`, then appends `last_sep` (defaulting to `sep`) and the formatted last
element. An empty sequence makes `names[-1]` raise `IndexError`; slicing a
non-sequence raises `TypeError`; a Python string is sliced per character. -/
def list_to_str (names : Value) (pattern sep : String) (lastSep : Option String) :
    Except PyErr String :=
  let lsep := match lastSep with
    | none => sep
    | some s => s
  match names with
  | .seq xs =>
    let ls := toListV xs
    match ls.getLast? with
    | none => .error .indexError
    | some lastv =>
      match mapExceptL (fmtPattern pattern) ls.dropLast with
      | .error e => .error e
      | .ok parts =>
        match fmtPattern pattern lastv with
        | .error e => .error e
        | .ok lastStr => .ok (String.intercalate sep parts ++ lsep ++ lastStr)
  | .vstr s =>
    match s.data.getLast? with
    | none => .error .indexError
    | some lastc =>
      match mapExceptL (fun ch => fmtPattern pattern (.vstr (String.mk [ch]))) s.data.dropLast with
      | .error e => .error e
      | .ok parts =>
        match fmtPattern pattern (.vstr (String.mk [lastc])) with
        | .error e => .error e
        | .ok lastStr => .ok (String.intercalate sep parts ++ lsep ++ lastStr)
  | _ => .error .typeError

/-- `Formatter._convert_field_d`: `list_to_str(value, '"{n}"')` with the
default separators. -/
def convert_field_d (v : Value) : Except PyErr String :=
  list_to_str v "\"{n}\"" ", " none

/-- `Formatter.convert_field` of the custom formatter: the extended
conversions `u`, `l`, `t`, `d` (looked up by method name), falling back to
the standard `s`, `r`, `a`, the identity for no conversion, and
`ValueError` for an unknown conversion character. -/
def applyConv : Option Char → Value → Except PyErr Value
  | none, v => .ok v
  | some c, v =>
    if c = 'u' then
      match renderValue v with
      | .ok s => .ok (.vstr s.toUpper)
      | .error e => .error e
    else if c = 'l' then
      match renderValue v with
      | .ok s => .ok (.vstr s.toLower)
      | .error e => .error e
    else if c = 't' then
      match renderValue v with
      | .ok s => .ok (.vstr (pyTitle s))
      | .error e => .error e
    else if c = 'd' then
      match convert_field_d v with
      | .ok s => .ok (.vstr s)
      | .error e => .error e
    else if c = 's' then
      match renderValue v with
      | .ok s => .ok (.vstr s)
      | .error e => .error e
    else if c = 'r' || c = 'a' then .ok (.vstr (pyRepr v))
    else .error .valueError

/-- Renders a token list with the custom formatter against the keyword
arguments `es` (the document root unpacked by `**substitutions`). -/
def renderTokList (es : Entries) : List FTok → Except PyErr String
  | [] => .ok ""
  | .lit s :: rest =>
    match renderTokList es rest with
    | .ok t => .ok (s ++ t)
    | .error e => .error e
  | .field nm conv spec :: rest =>
    match lookupField nm es with
    | .error e => .error e
    | .ok v =>
      match applyConv conv v with
      | .error e => .error e
      | .ok v' =>
        match formatField v' spec with
        | .error e => .error e
        | .ok s =>
          match renderTokList es rest with
          | .ok t => .ok (s ++ t)
          | .error e => .error e

/-- Whether a dict holds an integer key (unpacking such a dict with `**`
raises `TypeError: keywords must be strings`). -/
def hasIntKey : Entries → Bool
  | .nil => false
  | .cons (.i _) _ _ => true
  | .cons (.s _) _ rest => hasIntKey rest

/-- The keyword arguments obtained from `**substitutions`: the document
root must be a dict with string keys. -/
def kwargsOf : Value → Except PyErr Entries
  | .map es => if hasIntKey es then .error .typeError else .ok es
  | _ => .error .typeError

/-- `self.formatter.format(template, **root)`: unpack the root, parse the
template, render the tokens. -/
def fmt (t : String) (root : Value) : Except PyErr String :=
  match kwargsOf root with
  | .error e => .error e
  | .ok es =>
    match parseTmpl t with
    | .error e => .error e
    | .ok toks => renderTokList es toks

/-- `ExtendedArgument.__get__(root=root)`: formats the template against the
root; a `KeyError` or `IndexError` is re-raised as the `KeyError`
`'The value pattern "..." could not be resolved'` (the `UnresolvedReference`
of the specification); other exceptions propagate unchanged. -/
def eaGet (root : Value) (t : String) : Except PyErr String :=
  match fmt t root with
  | .ok s => .ok s
  | .error .keyError => .error (.unresolved t)
  | .error .indexError => .error (.unresolved t)
  | .error e => .error e

-- Extended-argument resolver ------------------------------------------------

/-!
`Configuration.resolve_extended_arguments(self, data)` mutates the tree in
place: it walks dict entries in insertion order and then list elements in
index order, and replaces each `ExtendedArgument` by
`data.__get__(root=self)`, formatted against the *current* state of the
whole document (in the reflexive call `config.resolve_extended_arguments
(config)` made by `from_yaml`, `self` and `data` are the same object, so a
template visited later sees the already-substituted values of references
visited earlier). The in-place mutation is modelled with a context function
`ctx` that rebuilds the current whole document from the subtree being
visited: when the resolver stands on a subtree `v`, the document as Python
sees it at that moment is `ctx v`, with all previously visited positions
already replaced and all later positions still original. The functions
return the resolved subtree; an exception aborts the whole traversal.
-/

mutual
/-- Resolves one subtree; `ctx` rebuilds the current document root from it
(at the moment a reference is formatted, it is itself still unreplaced in
the document, hence `ctx (.ref t)`). -/
def resolveNode (ctx : Value → Value) : Value → Except PyErr Value
  | .ref t =>
    match eaGet (ctx (.ref t)) t with
    | .ok s => .ok (.vstr s)
    | .error e => .error e
  | .map es =>
    match resolveEntries ctx .nil es with
    | .ok es' => .ok (.map es')
    | .error e => .error e
  | .seq xs =>
    match resolveElems ctx .nil xs with
    | .ok xs' => .ok (.seq xs')
    | .error e => .error e
  | .vint n => .ok (.vint n)
  | .vstr s => .ok (.vstr s)
  | .vtyped tag p => .ok (.vtyped tag p)
termination_by structural v => v

/-- Resolves the remaining entries `todo` of a dict whose already-resolved
prefix is `done`; `ctx` rebuilds the document from the full entry list. -/
def resolveEntries (ctx : Value → Value) (done : Entries) : Entries → Except PyErr Entries
  | .nil => .ok .nil
  | .cons k v rest =>
    match resolveNode (fun c => ctx (.map (eappend done (.cons k c rest)))) v with
    | .error e => .error e
    | .ok v' =>
      match resolveEntries ctx (eappend done (.cons k v' .nil)) rest with
      | .error e => .error e
      | .ok rest' => .ok (.cons k v' rest')
termination_by structural todo => todo

/-- Resolves the remaining elements `todo` of a list whose already-resolved
prefix is `done`. -/
def resolveElems (ctx : Value → Value) (done : Values) : Values → Except PyErr Values
  | .nil => .ok .nil
  | .cons v rest =>
    match resolveNode (fun c => ctx (.seq (vappend done (.cons c rest)))) v with
    | .error e => .error e
    | .ok v' =>
      match resolveElems ctx (vappend done (.cons v' .nil)) rest with
      | .error e => .error e
      | .ok rest' => .ok (.cons v' rest')
termination_by structural todo => todo
end

/-- The top-level resolve operation,
`config.resolve_extended_arguments(config)`: the data being resolved is the
document root itself. -/
def resolveTop (root : Value) : Except PyErr Value :=
  resolveNode id root

mutual
/-- Whether a tree still contains an `ExtendedArgument` node. -/
def hasRefs : Value → Bool
  | .ref _ => true
  | .map es => hasRefsE es
  | .seq xs => hasRefsV xs
  | .vint _ => false
  | .vstr _ => false
  | .vtyped _ _ => false

/-- Whether dict entries contain an `ExtendedArgument` node. -/
def hasRefsE : Entries → Bool
  | .nil => false
  | .cons _ v rest => hasRefs v || hasRefsE rest

/-- Whether list elements contain an `ExtendedArgument` node. -/
def hasRefsV : Values → Bool
  | .nil => false
  | .cons v rest => hasRefs v || hasRefsV rest
end

-- YAML loading --------------------------------------------------------------

mutual
/-- A parsed YAML node as the `SafeLoader` machinery hands it to the
constructors: an untagged node already constructed to its plain value (the
standard scalar/collection resolution is taken as given), or a tagged
scalar with its string content, or a mapping, or a sequence. -/
inductive YNode where
  | plain (v : Value)
  | tagged (tag : String) (s : String)
  | ymap (es : YEntries)
  | yseq (xs : YNodes)

/-- Mapping entries of a YAML node. -/
inductive YEntries where
  | nil
  | cons (k : MKey) (n : YNode) (rest : YEntries)

/-- Sequence elements of a YAML node. -/
inductive YNodes where
  | nil
  | cons (n : YNode) (rest : YNodes)
end

mutual
/-- Construction of the tree by `ConfigYamlLoader`: the docstring-attached
constructors map `!r` to an `ExtendedArgument` (`construct_extended_argument`)
and `!Timestamp`/`!Timedelta` to pandas values (kept abstract); any other
tag has no constructor and `yaml.load` fails with a `ConstructorError`. -/
def construct : YNode → Except PyErr Value
  | .plain v => .ok v
  | .tagged tag s =>
    if tag = "!r" then .ok (.ref s)
    else if tag = "!Timestamp" || tag = "!Timedelta" then .ok (.vtyped tag s)
    else .error (.constructorError tag)
  | .ymap es =>
    match constructE .nil es with
    | .ok es' => .ok (.map es')
    | .error e => .error e
  | .yseq xs =>
    match constructV xs with
    | .ok xs' => .ok (.seq xs')
    | .error e => .error e

/-- Builds a dict from mapping entries by successive assignment (so a
duplicate key keeps its first position with its last value, as in Python). -/
def constructE (acc : Entries) : YEntries → Except PyErr Entries
  | .nil => .ok acc
  | .cons k n rest =>
    match construct n with
    | .error e => .error e
    | .ok v => constructE (mapSet acc k v) rest

/-- Builds a list from sequence elements. -/
def constructV : YNodes → Except PyErr Values
  | .nil => .ok .nil
  | .cons n rest =>
    match construct n with
    | .error e => .error e
    | .ok v =>
      match constructV rest with
      | .ok vs => .ok (.cons v vs)
      | .error e => .error e
end

/-- `Configuration.from_yaml`: construct the tree from the parsed input,
wrap it in a `Configuration` (a dict subclass - `dict(x)` on a non-mapping
raises `TypeError`; the exotic pair-sequence form of the `dict` constructor
is not modelled as nothing in the repository produces it), and resolve the
extended arguments, returning the resolved document or propagating the
error. -/
def from_yaml (n : YNode) : Except PyErr Value :=
  match construct n with
  | .error e => .error e
  | .ok (.map es) => resolveTop (.map es)
  | .ok _ => .error .typeError

-- YAML dumping ---------------------------------------------------------------

/-- The Python runtime types relevant to the dumper's representer dispatch. -/
inductive PyType where
  | noneType
  | boolT
  | intT
  | floatT
  | strT
  | bytesT
  | listT
  | tupleT
  | dictT
  | setT
  | dateT
  | datetimeT
  | configuration
  | objectT
deriving DecidableEq, Repr

/-- Method resolution order of a runtime type: `Configuration` derives from
`dict`; the other modelled types derive directly from `object`. -/
def typeMro : PyType → List PyType
  | .configuration => [.configuration, .dictT, .objectT]
  | t => [t, .objectT]

/-- The exact-type representer table of `SafeRepresenter` (from which
`ConfigYamlDumper` inherits through `SafeDumper`); the `None` fallback entry
of that table is `represent_undefined`, modelled in `representData`. -/
def safeRepresenters : List PyType :=
  [.noneType, .strT, .bytesT, .boolT, .intT, .floatT, .listT, .tupleT, .dictT, .setT,
    .dateT, .datetimeT]

/-- `SafeRepresenter` registers no multi-representers (and the
auto-attached pandas representers of `ConfigYamlDumper` are exact-type
registrations for the pandas classes, irrelevant to a `Configuration`). -/
def safeMultiRepresenters : List PyType := []

/-- The dispatch of `BaseRepresenter.represent_data` on the runtime type of
the object being dumped: an exact-type representer for `mro[0]`, else the
first multi-representer along the mro, else the `None` fallback
`represent_undefined`, which raises
`RepresenterError("cannot represent an object")`. -/
def representData (t : PyType) : Except PyErr Unit :=
  match typeMro t with
  | [] => .error .representerError
  | t0 :: _ =>
    if t0 ∈ safeRepresenters then .ok ()
    else if (typeMro t).any (fun u => u ∈ safeMultiRepresenters) then .ok ()
    else .error .representerError

/-- `Configuration.as_yaml` calls `yaml.dump(self, ...)`, which begins by
dispatching `represent_data` on the root object; the root's runtime type is
always `Configuration`. The serialization that would follow a successful
dispatch is not modelled: it is unreachable (see the claim on the
round-trip). -/
def as_yaml (_d : Value) : Except PyErr Unit :=
  representData .configuration

-- Auxiliary definitions for the statements of the claims ----------------------

/-- Builds a Python list of ints. -/
def vOfInts : List Int → Values
  | [] => .nil
  | n :: rest => .cons (.vint n) (vOfInts rest)

/-- The head (first dotted part) of a replacement field's name, when the
name parses. -/
def fieldHeadOf (nm : String) : Option String :=
  match splitField nm.data with
  | .ok p => some p.1
  | .error _ => none

/-- Whether a token is a replacement field whose head is the key `h` (such a
field is resolved by looking `h` up among the keyword arguments). -/
def tokNeedsKey (h : String) : FTok → Bool
  | .field nm _ _ => decide (fieldHeadOf nm = some h)
  | .lit _ => false

/-- Whether a template parses and contains a replacement field whose head is
the key `h`. -/
def templateNeedsKey (t h : String) : Bool :=
  match parseTmpl t with
  | .ok toks => toks.any (tokNeedsKey h)
  | .error _ => false

mutual
/-- Whether a tree contains a Reference node whose template has a
placeholder headed by the key `h` (a placeholder that cannot be resolved
when `h` is absent from the document's top-level mapping). -/
def hasBadRef (h : String) : Value → Bool
  | .ref t => templateNeedsKey t h
  | .map es => hasBadRefE h es
  | .seq xs => hasBadRefV h xs
  | .vint _ => false
  | .vstr _ => false
  | .vtyped _ _ => false

/-- `hasBadRef` over dict entries. -/
def hasBadRefE (h : String) : Entries → Bool
  | .nil => false
  | .cons _ v rest => hasBadRef h v || hasBadRefE h rest

/-- `hasBadRef` over list elements. -/
def hasBadRefV (h : String) : Values → Bool
  | .nil => false
  | .cons v rest => hasBadRef h v || hasBadRefV h rest
end

/-- The key `h` is absent from the top-level mapping of a document root. -/
def topMiss (r : Value) (h : String) : Prop :=
  ∀ es, r = .map es → mapFind es (.s h) = none

-- Lemmas on the path addressor ------------------------------------------------

theorem mapFind_mapSet_self (es : Entries) (k : MKey) (v : Value) :
    mapFind (mapSet es k v) k = some v := by
  cases es with
  | nil => simp [mapSet, mapFind]
  | cons k' v' rest =>
    by_cases h : k' = k
    · simp [mapSet, h, mapFind]
    · simp [mapSet, h, mapFind, mapFind_mapSet_self rest k v]

theorem vlen_vset (xs : Values) (j : Nat) (v : Value) : vlen (vset xs j v) = vlen xs := by
  cases xs with
  | nil => rfl
  | cons w rest =>
    cases j with
    | zero => rfl
    | succ j => simp [vset, vlen, vlen_vset rest j v]

theorem vget_vset_self (xs : Values) (j : Nat) (v : Value) (h : j < vlen xs) :
    vget (vset xs j v) j = some v := by
  cases xs with
  | nil => simp [vlen] at h
  | cons w rest =>
    cases j with
    | zero => rfl
    | succ j =>
      simp [vlen] at h
      simp [vset, vget, vget_vset_self rest j v (by omega)]

theorem normIdx_lt (i : Int) (n : Nat) (j : Nat) (h : normIdx i n = some j) : j < n := by
  have key : ∀ m : Int, (if 0 ≤ m ∧ m < (n : Int) then some m.toNat else none) = some j → j < n := by
    intro m hm
    split at hm
    · next hc =>
      injection hm with hm
      omega
    · exact absurd hm (by simp)
  simp only [normIdx] at h
  exact key _ h

theorem lookup1_assign1 (node : Value) (sgm : Seg) (v node' : Value)
    (h : assign1 node sgm v = some node') : lookup1 node' sgm = .found v := by
  cases node with
  | map es =>
    simp [assign1] at h
    subst h
    cases sgm with
    | key k => simp [lookup1, segKey, mapFind_mapSet_self]
    | idx i => simp [lookup1, segKey, mapFind_mapSet_self]
  | seq xs =>
    cases sgm with
    | key k => simp [assign1] at h
    | idx i =>
      simp only [assign1] at h
      cases hn : normIdx i (vlen xs) with
      | none => rw [hn] at h; exact absurd h (by simp)
      | some j =>
        rw [hn] at h
        injection h with h
        subst h
        simp only [lookup1, vlen_vset, hn]
        rw [vget_vset_self xs j v (normIdx_lt i (vlen xs) j hn)]
  | vint n => simp [assign1] at h
  | vstr s => simp [assign1] at h
  | vtyped tag p => simp [assign1] at h
  | ref t => simp [assign1] at h

theorem getAux_setSegs (segs : List Seg) (root v root' : Value)
    (h : setSegs root segs v = some root') : getAux root' segs = .found v := by
  induction segs generalizing root root' with
  | nil => simp [setSegs] at h
  | cons sgm rest ih =>
    cases rest with
    | nil =>
      simp only [setSegs] at h
      simp [getAux, lookup1_assign1 root sgm v root' h]
    | cons sgm2 rest2 =>
      simp only [setSegs] at h
      cases hl : lookup1 root sgm with
      | found child =>
        simp only [hl] at h
        cases hs : setSegs child (sgm2 :: rest2) v with
        | none =>
          simp only [hs] at h
          exact absurd h (by simp)
        | some child' =>
          simp only [hs] at h
          have hfound : lookup1 root' sgm = .found child' :=
            lookup1_assign1 root sgm child' root' h
          simp only [getAux, hfound]
          exact ih child child' hs
      | notFound =>
        simp only [hl] at h
        cases root with
        | map es =>
          cases hs : setSegs (.map .nil) (sgm2 :: rest2) v with
          | none =>
            simp only [hs] at h
            exact absurd h (by simp)
          | some child' =>
            simp only [hs] at h
            injection h with h
            subst h
            have hfound :
                lookup1 (Value.map (mapSet es (segKey sgm) child')) sgm = .found child' :=
              lookup1_assign1 (.map es) sgm child' _ rfl
            simp only [getAux, hfound]
            exact ih _ child' hs
        | seq xs => exact absurd h (by simp)
        | vint n => exact absurd h (by simp)
        | vstr s => exact absurd h (by simp)
        | vtyped tag p => exact absurd h (by simp)
        | ref t => exact absurd h (by simp)
      | typeErr =>
        simp only [hl] at h
        exact absurd h (by simp)

-- Claims on the path addressor ------------------------------------------------

/-- C3: for every tree root, every path expression `p` on which `set`
succeeds, and every value `v`, getting `p` after setting `v` at `p` returns
`v`: `get(set(root, p, v), p) == v` (the hypothesis that `set` succeeds is
the claim's "valid path reachable in the tree"; both operations parse the
path with the same scan). -/
theorem c3_get_after_set (root : Value) (path : String) (v root' : Value)
    (h : setPath root path v = some root') : configGet root' path = .ok v := by
  unfold setPath at h
  unfold configGet
  rw [getAux_setSegs (parsePath path) root v root' h]

/-- Witness for C3 at the concrete instance `set({}, "a.b", 7)`. -/
theorem c3_witness :
    configGet
      (.map (.cons (.s "a") (.map (.cons (.s "b") (.vint 7) .nil)) .nil)) "a.b" = .ok (.vint 7) :=
  c3_get_after_set (.map .nil) "a.b" (.vint 7)
    (.map (.cons (.s "a") (.map (.cons (.s "b") (.vint 7) .nil)) .nil)) rfl

/-- C4 counterexample: on the document `{a: []}` the lookup `a.b` applies a
map key to a Sequence; `get` with a default raises an uncaught `TypeError`
instead of returning the supplied default, so `get` with a default *can*
fail and the failure kinds are not treated uniformly. -/
theorem c4_counterexample :
    configGetD (.map (.cons (.s "a") (.seq .nil) .nil)) "a.b" (.vint 0) = .error .typeError ∧
    (Except.error .typeError : Except PyErr Value) ≠ .ok (.vint 0) :=
  ⟨rfl, fun h => Except.noConfusion h⟩

/-- C4 amended: `get` treats the lookup failures that raise
`KeyError`/`IndexError` - a missing map key, an out-of-bounds sequence
index, and an integer index applied to a Map - uniformly: if a default was
supplied it is returned, otherwise `get` fails with a `ValueError` naming
the path. But a map-key segment applied to a Sequence (like any subscript
of a non-container) raises an uncaught `TypeError`, so such a lookup fails
even when a default was supplied. -/
theorem c4_amended (root : Value) (path : String) (d : Value) :
    (getAux root (parsePath path) = .notFound →
      configGet root path = .error (.notFoundValueError path) ∧ configGetD root path d = .ok d) ∧
    (getAux root (parsePath path) = .typeErr →
      configGet root path = .error .typeError ∧ configGetD root path d = .error .typeError) ∧
    (∀ es k, mapFind es (.s k) = none → lookup1 (.map es) (.key k) = .notFound) ∧
    (∀ es i, mapFind es (.i i) = none → lookup1 (.map es) (.idx i) = .notFound) ∧
    (∀ xs i, normIdx i (vlen xs) = none → lookup1 (.seq xs) (.idx i) = .notFound) ∧
    (∀ xs k, lookup1 (.seq xs) (.key k) = .typeErr) := by
  refine ⟨fun h => ?_, fun h => ?_, fun es k h => ?_, fun es i h => ?_, fun xs i h => ?_,
    fun xs k => ?_⟩
  · unfold configGet configGetD
    rw [h]
    exact ⟨rfl, rfl⟩
  · unfold configGet configGetD
    rw [h]
    exact ⟨rfl, rfl⟩
  · simp [lookup1, h]
  · simp [lookup1, h]
  · simp [lookup1, h]
  · simp [lookup1]

/-- Witness for C4 amended at the concrete missing key `b` in `{}`. -/
theorem c4_amended_witness :
    configGet (.map .nil) "b" = .error (.notFoundValueError "b") ∧
    configGetD (.map .nil) "b" (.vint 3) = .ok (.vint 3) :=
  (c4_amended (.map .nil) "b" (.vint 3)).1 rfl

/-- C5: `set` walks all segments but the last, auto-vivifying a missing
intermediate map key with an empty dict, never auto-vivifies sequences (a
missing sequence slot is always an error), assigns at the final segment
overwriting any existing node, and `set({}, "a.b.c", 5)` produces
`{a: {b: {c: 5}}}`. -/
theorem c5_set_autovivification :
    setPath (.map .nil) "a.b.c" (.vint 5) =
      some (.map (.cons (.s "a")
        (.map (.cons (.s "b") (.map (.cons (.s "c") (.vint 5) .nil)) .nil)) .nil)) ∧
    (∀ xs i rest v, rest ≠ [] → lookup1 (.seq xs) (.idx i) = .notFound →
      setSegs (.seq xs) (.idx i :: rest) v = none) ∧
    (∀ es sgm rest v, rest ≠ [] → lookup1 (.map es) sgm = .notFound →
      setSegs (.map es) (sgm :: rest) v =
        (setSegs (.map .nil) rest v).map (fun c => .map (mapSet es (segKey sgm) c))) ∧
    (∀ node sgm v, setSegs node [sgm] v = assign1 node sgm v) ∧
    (∀ es sgm v, setSegs (.map es) [sgm] v = some (.map (mapSet es (segKey sgm) v))) := by
  refine ⟨rfl, fun xs i rest v hr h => ?_, fun es sgm rest v hr h => ?_,
    fun node sgm v => ?_, fun es sgm v => ?_⟩
  · cases rest with
    | nil => exact absurd rfl hr
    | cons s2 r2 =>
      simp only [setSegs]
      rw [h]
  · cases rest with
    | nil => exact absurd rfl hr
    | cons s2 r2 =>
      simp only [setSegs]
      rw [h]
      cases setSegs (.map .nil) (s2 :: r2) v with
      | none => rfl
      | some child' => rfl
  · rfl
  · rfl

/-- Witness for C5 at concrete instances: setting through a missing slot of
an empty sequence fails, and setting through a missing key of a map
auto-vivifies. -/
theorem c5_witness :
    setSegs (.seq .nil) [.idx 0, .key "b"] (.vint 5) = none ∧
    setSegs (.map .nil) [.key "a", .key "b"] (.vint 5) =
      some (.map (.cons (.s "a") (.map (.cons (.s "b") (.vint 5) .nil)) .nil)) := by
  constructor
  · exact c5_set_autovivification.2.1 .nil 0 [.key "b"] (.vint 5) (by simp) rfl
  · rw [c5_set_autovivification.2.2.1 .nil (.key "a") [.key "b"] (.vint 5) (by simp) rfl]
    rfl

/-- C8 counterexample: on the document `{a: 1}` the path `"A"`, differing
from the stored key only in case, does not reach the stored value - the
lookup is case-sensitive and fails with the `ValueError` naming the path -
while the exact-case path `"a"` succeeds. -/
theorem c8_counterexample :
    configGet (.map (.cons (.s "a") (.vint 1) .nil)) "A" = .error (.notFoundValueError "A") ∧
    configGet (.map (.cons (.s "a") (.vint 1) .nil)) "a" = .ok (.vint 1) :=
  ⟨rfl, rfl⟩

/-- C8 amended: the path parser's identifier pattern is case-insensitive
(identifiers may be written with letters of either case and are kept as
written), but map-key lookup is case-sensitive: a `get` whose identifier
differs from the stored key in any way - including only in letter case -
is a lookup failure, while the exact key reaches the value. -/
theorem c8_amended :
    parsePath "Ab_1" = [.key "Ab_1"] ∧
    parsePath "ab_1" = [.key "ab_1"] ∧
    (∀ (k k' : String) (v : Value), k' ≠ k →
      getAux (.map (.cons (.s k) v .nil)) [.key k'] = .notFound ∧
      getAux (.map (.cons (.s k) v .nil)) [.key k] = .found v) := by
  refine ⟨rfl, rfl, fun k k' v h => ⟨?_, ?_⟩⟩
  · have hne : MKey.s k ≠ MKey.s k' := fun hh => h (MKey.s.inj hh).symm
    have hf : mapFind (.cons (.s k) v .nil) (.s k') = none := by
      simp only [mapFind, if_neg hne]
    simp [getAux, lookup1, hf]
  · simp [getAux, lookup1, mapFind]

/-- Witness for C8 amended at the keys `a` and `A`. -/
theorem c8_amended_witness :
    getAux (.map (.cons (.s "a") (.vint 1) .nil)) [.key "A"] = .notFound ∧
    getAux (.map (.cons (.s "a") (.vint 1) .nil)) [.key "a"] = .found (.vint 1) :=
  (c8_amended.2.2 "a" "A" (.vint 1) (by decide))

/-- C10: a bracketed index is recognised by the path scan only when its
closing bracket is followed by `.`, `|` or `$` (a literal character class
in the regex, not an end anchor); a trailing bracketed index is silently
dropped, so `get(root, "a[0]")` returns the whole sequence stored at `a`
(and can never fail out of bounds), and `set` with such a path assigns at
the last recognised segment `a`. -/
theorem c10_trailing_index_dropped :
    parsePath "a[0]" = [.key "a"] ∧
    parsePath "a[0]." = [.key "a", .idx 0] ∧
    parsePath "a[0]|" = [.key "a", .idx 0] ∧
    parsePath "a[0]$" = [.key "a", .idx 0] ∧
    (∀ es xs, mapFind es (.s "a") = some (.seq xs) →
      configGet (.map es) "a[0]" = .ok (.seq xs)) ∧
    (∀ es v, setPath (.map es) "a[0]" v = some (.map (mapSet es (.s "a") v))) := by
  have hp : parsePath "a[0]" = [.key "a"] := rfl
  refine ⟨rfl, rfl, rfl, rfl, fun es xs h => ?_, fun es v => ?_⟩
  · unfold configGet
    rw [hp]
    simp [getAux, lookup1, h]
  · unfold setPath
    rw [hp]
    rfl

/-- Witness for C10 at the document `{a: [9]}`. -/
theorem c10_witness :
    configGet (.map (.cons (.s "a") (.seq (.cons (.vint 9) .nil)) .nil)) "a[0]" =
      .ok (.seq (.cons (.vint 9) .nil)) :=
  c10_trailing_index_dropped.2.2.2.2.1 (.cons (.s "a") (.seq (.cons (.vint 9) .nil)) .nil)
    (.cons (.vint 9) .nil) rfl


-- Lemmas on the resolver ------------------------------------------------------

mutual
theorem resolveNode_noRefs (ctx : Value → Value) (v : Value) (h : hasRefs v = false) :
    resolveNode ctx v = .ok v := by
  cases v with
  | ref t => simp [hasRefs] at h
  | map es =>
    have he : hasRefsE es = false := by simpa [hasRefs] using h
    simp [resolveNode, resolveEntries_noRefs ctx .nil es he]
  | seq xs =>
    have he : hasRefsV xs = false := by simpa [hasRefs] using h
    simp [resolveNode, resolveElems_noRefs ctx .nil xs he]
  | vint n => simp [resolveNode]
  | vstr s => simp [resolveNode]
  | vtyped tag p => simp [resolveNode]

theorem resolveEntries_noRefs (ctx : Value → Value) (done todo : Entries)
    (h : hasRefsE todo = false) : resolveEntries ctx done todo = .ok todo := by
  cases todo with
  | nil => simp [resolveEntries]
  | cons k v rest =>
    simp only [hasRefsE, Bool.or_eq_false_iff] at h
    simp [resolveEntries, resolveNode_noRefs _ v h.1,
      resolveEntries_noRefs ctx (eappend done (.cons k v .nil)) rest h.2]

theorem resolveElems_noRefs (ctx : Value → Value) (done todo : Values)
    (h : hasRefsV todo = false) : resolveElems ctx done todo = .ok todo := by
  cases todo with
  | nil => simp [resolveElems]
  | cons v rest =>
    simp only [hasRefsV, Bool.or_eq_false_iff] at h
    simp [resolveElems, resolveNode_noRefs _ v h.1,
      resolveElems_noRefs ctx (vappend done (.cons v .nil)) rest h.2]
end

mutual
theorem resolveNode_ok_noRefs (ctx : Value → Value) (v r : Value)
    (h : resolveNode ctx v = .ok r) : hasRefs r = false := by
  cases v with
  | ref t =>
    simp only [resolveNode] at h
    cases he : eaGet (ctx (.ref t)) t with
    | ok s =>
      simp only [he] at h
      injection h with h
      subst h
      simp [hasRefs]
    | error e =>
      simp only [he] at h
      exact absurd h (by simp)
  | map es =>
    simp only [resolveNode] at h
    cases he : resolveEntries ctx .nil es with
    | ok es' =>
      simp only [he] at h
      injection h with h
      subst h
      simpa [hasRefs] using resolveEntries_ok_noRefs ctx .nil es es' he
    | error e =>
      simp only [he] at h
      exact absurd h (by simp)
  | seq xs =>
    simp only [resolveNode] at h
    cases he : resolveElems ctx .nil xs with
    | ok xs' =>
      simp only [he] at h
      injection h with h
      subst h
      simpa [hasRefs] using resolveElems_ok_noRefs ctx .nil xs xs' he
    | error e =>
      simp only [he] at h
      exact absurd h (by simp)
  | vint n =>
    simp only [resolveNode] at h
    injection h with h
    subst h
    simp [hasRefs]
  | vstr s =>
    simp only [resolveNode] at h
    injection h with h
    subst h
    simp [hasRefs]
  | vtyped tag p =>
    simp only [resolveNode] at h
    injection h with h
    subst h
    simp [hasRefs]

theorem resolveEntries_ok_noRefs (ctx : Value → Value) (done todo es' : Entries)
    (h : resolveEntries ctx done todo = .ok es') : hasRefsE es' = false := by
  cases todo with
  | nil =>
    simp only [resolveEntries] at h
    injection h with h
    subst h
    simp [hasRefsE]
  | cons k v rest =>
    simp only [resolveEntries] at h
    cases hv : resolveNode (fun c => ctx (.map (eappend done (.cons k c rest)))) v with
    | error e =>
      simp only [hv] at h
      exact absurd h (by simp)
    | ok v' =>
      simp only [hv] at h
      cases hr : resolveEntries ctx (eappend done (.cons k v' .nil)) rest with
      | error e =>
        simp only [hr] at h
        exact absurd h (by simp)
      | ok rest' =>
        simp only [hr] at h
        injection h with h
        subst h
        simp [hasRefsE, resolveNode_ok_noRefs _ v v' hv,
          resolveEntries_ok_noRefs ctx (eappend done (.cons k v' .nil)) rest rest' hr]

theorem resolveElems_ok_noRefs (ctx : Value → Value) (done todo xs' : Values)
    (h : resolveElems ctx done todo = .ok xs') : hasRefsV xs' = false := by
  cases todo with
  | nil =>
    simp only [resolveElems] at h
    injection h with h
    subst h
    simp [hasRefsV]
  | cons v rest =>
    simp only [resolveElems] at h
    cases hv : resolveNode (fun c => ctx (.seq (vappend done (.cons c rest)))) v with
    | error e =>
      simp only [hv] at h
      exact absurd h (by simp)
    | ok v' =>
      simp only [hv] at h
      cases hr : resolveElems ctx (vappend done (.cons v' .nil)) rest with
      | error e =>
        simp only [hr] at h
        exact absurd h (by simp)
      | ok rest' =>
        simp only [hr] at h
        injection h with h
        subst h
        simp [hasRefsV, resolveNode_ok_noRefs _ v v' hv,
          resolveElems_ok_noRefs ctx (vappend done (.cons v' .nil)) rest rest' hr]
end

theorem from_yaml_ok_noRefs (n : YNode) (v : Value) (h : from_yaml n = .ok v) :
    hasRefs v = false := by
  unfold from_yaml at h
  cases hc : construct n with
  | error e =>
    simp only [hc] at h
    exact absurd h (by simp)
  | ok w =>
    simp only [hc] at h
    cases w with
    | map es => exact resolveNode_ok_noRefs id (.map es) v h
    | vint m => exact absurd h (by simp)
    | vstr s => exact absurd h (by simp)
    | vtyped tag p => exact absurd h (by simp)
    | ref t => exact absurd h (by simp)
    | seq xs => exact absurd h (by simp)



-- Lemmas: an unresolvable reference fails the whole resolve -------------------

theorem mapFind_eappend_none (a b : Entries) (k' : MKey)
    (ha : mapFind a k' = none) (hb : mapFind b k' = none) :
    mapFind (eappend a b) k' = none := by
  cases a with
  | nil => simpa [eappend] using hb
  | cons k v rest =>
    unfold mapFind at ha
    split at ha
    · exact absurd ha (by simp)
    · next hne =>
      simp only [eappend, mapFind, if_neg hne]
      exact mapFind_eappend_none rest b k' ha hb

theorem kwargsOf_ok (root : Value) (es : Entries) (h : kwargsOf root = .ok es) :
    root = .map es := by
  cases root with
  | map es2 =>
    have h2 : (if hasIntKey es2 = true then (Except.error PyErr.typeError : Except PyErr Entries)
        else .ok es2) = .ok es := by
      simpa [kwargsOf] using h
    split at h2
    · exact absurd h2 (by simp)
    · injection h2 with h2
      rw [h2]
  | vint n => exact absurd h (by simp [kwargsOf])
  | vstr s => exact absurd h (by simp [kwargsOf])
  | vtyped tag p => exact absurd h (by simp [kwargsOf])
  | ref t => exact absurd h (by simp [kwargsOf])
  | seq xs => exact absurd h (by simp [kwargsOf])

theorem lookupField_head_missing (nm : String) (es : Entries) (hd : String)
    (accs : List Accessor) (hsf : splitField nm.data = .ok (hd, accs))
    (hmiss : mapFind es (.s hd) = none) : ∃ e, lookupField nm es = .error e := by
  unfold lookupField
  by_cases hn : nm = ""
  · exact ⟨.indexError, by simp [hn]⟩
  · rw [if_neg hn]
    simp only [hsf]
    cases hdig : (decide (hd.length ≠ 0) && hd.data.all Char.isDigit) with
    | true => exact ⟨.indexError, by simp⟩
    | false =>
      refine ⟨.keyError, ?_⟩
      rw [if_neg (by simp), hmiss]

theorem renderTokList_needs_missing (es : Entries) (h : String) (toks : List FTok)
    (hmiss : mapFind es (.s h) = none) (hneed : toks.any (tokNeedsKey h) = true) :
    ∃ e, renderTokList es toks = .error e := by
  induction toks with
  | nil => simp at hneed
  | cons tok rest ih =>
    rw [List.any_cons] at hneed
    cases tok with
    | lit s =>
      rw [show tokNeedsKey h (.lit s) = false from rfl, Bool.false_or] at hneed
      obtain ⟨e, he⟩ := ih hneed
      exact ⟨e, by simp [renderTokList, he]⟩
    | field nm conv spec =>
      by_cases hx : tokNeedsKey h (.field nm conv spec) = true
      · have hx2 : fieldHeadOf nm = some h := by
          simpa [tokNeedsKey, decide_eq_true_eq] using hx
        cases hsf : splitField nm.data with
        | error e => simp [fieldHeadOf, hsf] at hx2
        | ok p =>
          have hp1 : p.1 = h := by
            have := hx2
            rw [fieldHeadOf, hsf] at this
            simpa using this
          obtain ⟨e, he⟩ :=
            lookupField_head_missing nm es p.1 p.2 (by rw [hsf]) (by rw [hp1]; exact hmiss)
          exact ⟨e, by simp [renderTokList, he]⟩
      · simp only [Bool.not_eq_true] at hx
        rw [hx, Bool.false_or] at hneed
        obtain ⟨e, he⟩ := ih hneed
        cases hl : lookupField nm es with
        | error e2 => exact ⟨e2, by simp [renderTokList, hl]⟩
        | ok v =>
          cases hc : applyConv conv v with
          | error e2 => exact ⟨e2, by simp [renderTokList, hl, hc]⟩
          | ok v2 =>
            cases hfld : formatField v2 spec with
            | error e2 => exact ⟨e2, by simp [renderTokList, hl, hc, hfld]⟩
            | ok s2 => exact ⟨e, by simp [renderTokList, hl, hc, hfld, he]⟩

theorem eaGet_err_of_fmt_err (root : Value) (t : String) (e : PyErr)
    (h : fmt t root = .error e) : ∃ e2, eaGet root t = .error e2 := by
  unfold eaGet
  rw [h]
  cases e with
  | keyError => exact ⟨_, rfl⟩
  | indexError => exact ⟨_, rfl⟩
  | typeError => exact ⟨_, rfl⟩
  | valueError => exact ⟨_, rfl⟩
  | attributeError => exact ⟨_, rfl⟩
  | unresolved t2 => exact ⟨_, rfl⟩
  | notFoundValueError p => exact ⟨_, rfl⟩
  | representerError => exact ⟨_, rfl⟩
  | constructorError tag => exact ⟨_, rfl⟩
  | unsupportedSpec => exact ⟨_, rfl⟩

theorem eaGet_needs_missing (root : Value) (t h : String)
    (hneed : templateNeedsKey t h = true) (hm : topMiss root h) :
    ∃ e, eaGet root t = .error e := by
  unfold templateNeedsKey at hneed
  cases hp : parseTmpl t with
  | error e =>
    rw [hp] at hneed
    simp at hneed
  | ok toks =>
    rw [hp] at hneed
    cases hk : kwargsOf root with
    | error e => exact eaGet_err_of_fmt_err root t e (by simp [fmt, hk])
    | ok es =>
      have hmiss : mapFind es (.s h) = none := hm es (kwargsOf_ok root es hk)
      obtain ⟨e, he⟩ := renderTokList_needs_missing es h toks hmiss hneed
      exact eaGet_err_of_fmt_err root t e (by simp [fmt, hk, hp, he])

mutual
theorem resolveNode_badRef (ctx : Value → Value) (h : String) (v : Value)
    (hctx : ∀ w, topMiss (ctx w) h) (hbad : hasBadRef h v = true) :
    ∃ e, resolveNode ctx v = .error e := by
  cases v with
  | ref t =>
    obtain ⟨e, he⟩ :=
      eaGet_needs_missing (ctx (.ref t)) t h (by simpa [hasBadRef] using hbad) (hctx _)
    exact ⟨e, by simp [resolveNode, he]⟩
  | map es =>
    obtain ⟨e, he⟩ :=
      resolveEntries_badRef ctx h .nil es hctx (by simpa [hasBadRef] using hbad)
    exact ⟨e, by simp [resolveNode, he]⟩
  | seq xs =>
    obtain ⟨e, he⟩ :=
      resolveElems_badRef ctx h .nil xs hctx (by simpa [hasBadRef] using hbad)
    exact ⟨e, by simp [resolveNode, he]⟩
  | vint n => simp [hasBadRef] at hbad
  | vstr s => simp [hasBadRef] at hbad
  | vtyped tag p => simp [hasBadRef] at hbad

theorem resolveEntries_badRef (ctx : Value → Value) (h : String) (done todo : Entries)
    (hctx : ∀ w, topMiss (ctx w) h) (hbad : hasBadRefE h todo = true) :
    ∃ e, resolveEntries ctx done todo = .error e := by
  cases todo with
  | nil => simp [hasBadRefE] at hbad
  | cons k v rest =>
    rw [show hasBadRefE h (.cons k v rest) = (hasBadRef h v || hasBadRefE h rest) from rfl] at hbad
    by_cases hv : hasBadRef h v = true
    · obtain ⟨e, he⟩ :=
        resolveNode_badRef (fun c => ctx (.map (eappend done (.cons k c rest)))) h v
          (fun w => hctx _) hv
      exact ⟨e, by simp [resolveEntries, he]⟩
    · simp only [Bool.not_eq_true] at hv
      rw [hv, Bool.false_or] at hbad
      cases hres : resolveNode (fun c => ctx (.map (eappend done (.cons k c rest)))) v with
      | error e => exact ⟨e, by simp [resolveEntries, hres]⟩
      | ok v2 =>
        obtain ⟨e, he⟩ :=
          resolveEntries_badRef ctx h (eappend done (.cons k v2 .nil)) rest hctx hbad
        exact ⟨e, by simp [resolveEntries, hres, he]⟩

theorem resolveElems_badRef (ctx : Value → Value) (h : String) (done todo : Values)
    (hctx : ∀ w, topMiss (ctx w) h) (hbad : hasBadRefV h todo = true) :
    ∃ e, resolveElems ctx done todo = .error e := by
  cases todo with
  | nil => simp [hasBadRefV] at hbad
  | cons v rest =>
    rw [show hasBadRefV h (.cons v rest) = (hasBadRef h v || hasBadRefV h rest) from rfl] at hbad
    by_cases hv : hasBadRef h v = true
    · obtain ⟨e, he⟩ :=
        resolveNode_badRef (fun c => ctx (.seq (vappend done (.cons c rest)))) h v
          (fun w => hctx _) hv
      exact ⟨e, by simp [resolveElems, he]⟩
    · simp only [Bool.not_eq_true] at hv
      rw [hv, Bool.false_or] at hbad
      cases hres : resolveNode (fun c => ctx (.seq (vappend done (.cons c rest)))) v with
      | error e => exact ⟨e, by simp [resolveElems, hres]⟩
      | ok v2 =>
        obtain ⟨e, he⟩ :=
          resolveElems_badRef ctx h (vappend done (.cons v2 .nil)) rest hctx hbad
        exact ⟨e, by simp [resolveElems, hres, he]⟩
end

theorem resolveEntriesTop_badRef (h : String) (done todo : Entries)
    (hdone : mapFind done (.s h) = none) (htodo : mapFind todo (.s h) = none)
    (hbad : hasBadRefE h todo = true) : ∃ e, resolveEntries id done todo = .error e := by
  cases todo with
  | nil => simp [hasBadRefE] at hbad
  | cons k v rest =>
    have hsplit : ¬(k = MKey.s h) ∧ mapFind rest (.s h) = none := by
      unfold mapFind at htodo
      split at htodo
      · exact absurd htodo (by simp)
      · next hne => exact ⟨hne, htodo⟩
    have hctx : ∀ w, topMiss (Value.map (eappend done (.cons k w rest))) h := by
      intro w es heq
      have heq2 : eappend done (.cons k w rest) = es := by
        injection heq
      rw [← heq2]
      exact mapFind_eappend_none done (.cons k w rest) (.s h) hdone
        (by simp [mapFind, if_neg hsplit.1, hsplit.2])
    rw [show hasBadRefE h (.cons k v rest) = (hasBadRef h v || hasBadRefE h rest) from rfl] at hbad
    by_cases hv : hasBadRef h v = true
    · obtain ⟨e, he⟩ :=
        resolveNode_badRef (fun c => Value.map (eappend done (.cons k c rest))) h v
          (fun w => hctx w) hv
      exact ⟨e, by simp [resolveEntries, he]⟩
    · simp only [Bool.not_eq_true] at hv
      rw [hv, Bool.false_or] at hbad
      cases hres : resolveNode (fun c => Value.map (eappend done (.cons k c rest))) v with
      | error e => exact ⟨e, by simp [resolveEntries, hres]⟩
      | ok v2 =>
        obtain ⟨e, he⟩ := resolveEntriesTop_badRef h (eappend done (.cons k v2 .nil)) rest
          (mapFind_eappend_none done (.cons k v2 .nil) (.s h) hdone
            (by simp [mapFind, if_neg hsplit.1]))
          hsplit.2 hbad
        exact ⟨e, by simp [resolveEntries, hres, he]⟩

theorem resolveTop_badRef (es : Entries) (hkey : String)
    (hmiss : mapFind es (.s hkey) = none) (hbad : hasBadRef hkey (.map es) = true) :
    ∃ e, resolveTop (.map es) = .error e := by
  obtain ⟨e, he⟩ := resolveEntriesTop_badRef hkey .nil es rfl hmiss
    (by simpa [hasBadRef] using hbad)
  exact ⟨e, by simp [resolveTop, resolveNode, he]⟩

-- Claims on the resolver, loader and dumper ----------------------------------

/-- C1: the spec's missing-reference scenario `{b: !r "{missing.path}"}`
fails the top-level resolve with the `UnresolvedReference` error (the
`KeyError` naming the template) and `load` propagates it, returning no
Document; resolution is all-or-nothing: a caller of `load` sees either a
fully resolved Document - one with no remaining `Reference` nodes - or an
error, never a partially resolved Document; and in general, for every
document containing a Reference node whose template has a placeholder
headed by a key absent from the document root's top-level mapping (a
placeholder that cannot be resolved against the document root), the
top-level resolve operation fails. -/
theorem c1_unresolved_reference_all_or_nothing :
    resolveTop (.map (.cons (.s "b") (.ref "{missing.path}") .nil)) =
      .error (.unresolved "{missing.path}") ∧
    from_yaml (.ymap (.cons (.s "b") (.tagged "!r" "{missing.path}") .nil)) =
      .error (.unresolved "{missing.path}") ∧
    (∀ n, (∃ v, from_yaml n = .ok v ∧ hasRefs v = false) ∨ ∃ e, from_yaml n = .error e) ∧
    (∀ es hkey, mapFind es (.s hkey) = none → hasBadRef hkey (.map es) = true →
      ∃ e, resolveTop (.map es) = .error e) := by
  have h : fmt "{missing.path}" (.map (.cons (.s "b") (.ref "{missing.path}") .nil)) =
      .error .keyError := rfl
  refine ⟨?_, ?_, fun n => ?_, fun es hkey hmiss hbad => resolveTop_badRef es hkey hmiss hbad⟩
  · simp [resolveTop, resolveNode, resolveEntries, eappend, eaGet, h]
  · simp [from_yaml, construct, constructE, mapSet, resolveTop, resolveNode, resolveEntries,
      eappend, eaGet, h]
  · cases hf : from_yaml n with
    | ok v => exact Or.inl ⟨v, rfl, from_yaml_ok_noRefs n v hf⟩
    | error e => exact Or.inr ⟨e, rfl⟩

/-- Witness for C1 at the concrete missing-reference document. -/
theorem c1_witness :
    ∃ e, resolveTop (.map (.cons (.s "b") (.ref "{missing.path}") .nil)) = .error e :=
  c1_unresolved_reference_all_or_nothing.2.2.2
    (.cons (.s "b") (.ref "{missing.path}") .nil) "missing" rfl
    (by simp [hasBadRef, hasBadRefE, templateNeedsKey, tokNeedsKey, fieldHeadOf,
      show parseTmpl "{missing.path}" = .ok [.field "missing.path" none ""] from rfl,
      show splitField "missing.path".data = .ok ("missing", [.astr "path"]) from rfl])

/-- C6: decoding a scalar tagged `!r` produces a Reference node holding the
template string rather than a concrete value, and loading the document
`{a: 1, b: !r "{a}-suffix"}` resolves the reference at `b`, yielding
`{a: 1, b: "1-suffix"}`. -/
theorem c6_reference_decode_and_resolution :
    (∀ s, construct (.tagged "!r" s) = .ok (.ref s)) ∧
    from_yaml (.ymap (.cons (.s "a") (.plain (.vint 1))
        (.cons (.s "b") (.tagged "!r" "{a}-suffix") .nil))) =
      .ok (.map (.cons (.s "a") (.vint 1) (.cons (.s "b") (.vstr "1-suffix") .nil))) := by
  constructor
  · intro s
    simp [construct]
  · have h : fmt "{a}-suffix"
        (.map (.cons (.s "a") (.vint 1) (.cons (.s "b") (.ref "{a}-suffix") .nil))) =
        .ok "1-suffix" := rfl
    simp [from_yaml, construct, constructE, mapSet, resolveTop, resolveNode, resolveEntries,
      eappend, eaGet, h]

/-- C7: resolution is idempotent: when the top-level resolve succeeds, the
result contains no remaining Reference nodes, so resolving it again is a
no-op and `resolve(resolve(d)) == resolve(d)`. -/
theorem c7_resolve_idempotent (d r : Value) (h : resolveTop d = .ok r) :
    hasRefs r = false ∧ resolveTop r = .ok r := by
  have hn : hasRefs r = false := resolveNode_ok_noRefs id d r h
  exact ⟨hn, resolveNode_noRefs id r hn⟩

/-- Witness for C7 at the concrete document `{a: 1}` (already resolved). -/
theorem c7_witness :
    hasRefs (.map (.cons (.s "a") (.vint 1) .nil)) = false ∧
    resolveTop (.map (.cons (.s "a") (.vint 1) .nil)) =
      .ok (.map (.cons (.s "a") (.vint 1) .nil)) :=
  c7_resolve_idempotent (.map (.cons (.s "a") (.vint 1) .nil))
    (.map (.cons (.s "a") (.vint 1) .nil))
    (by simp [resolveTop, resolveNode, resolveEntries, eappend])

/-- C2 (code evaluated at the failing input): `as_yaml` dumps `self`, whose
runtime type is the dict subclass `Configuration`; the `SafeDumper`-derived
dumper's exact-type lookup finds no representer for it, no multi
representer is registered, and the `None` fallback `represent_undefined`
raises `RepresenterError("cannot represent an object")` - serialization
fails for every Configuration, so the round-trip
`load(save_to_string(d)) == d` holds for no document. -/
theorem c2_save_always_fails :
    representData .configuration = .error .representerError ∧
    as_yaml (.map (.cons (.s "a") (.vint 1) .nil)) = .error .representerError :=
  ⟨rfl, rfl⟩

-- Claims on list_to_str -------------------------------------------------------

theorem toListV_vOfInts (ns : List Int) : toListV (vOfInts ns) = ns.map Value.vint := by
  induction ns with
  | nil => rfl
  | cons n rest ih => simp [vOfInts, toListV, ih]

theorem fmtPattern_n (n : Int) : fmtPattern "{n}" (.vint n) = .ok (toString n) := by
  have hp : parseTmpl "{n}" = .ok [.field "n" none ""] := rfl
  have hs : splitField "n".data = .ok ("n", []) := rfl
  have hd : (("n" : String).length ≠ 0 && ("n" : String).data.all Char.isDigit) = false := rfl
  simp [fmtPattern, hp, renderBuiltinToks, builtinLookup, hs, hd, builtinConv, formatField,
    renderValue, List.foldlM, pure, Except.pure]

theorem mapExceptL_ok {α : Type} (f : α → Except PyErr String) (g : α → String) (l : List α)
    (h : ∀ a ∈ l, f a = .ok (g a)) : mapExceptL f l = .ok (l.map g) := by
  induction l with
  | nil => rfl
  | cons a rest ih =>
    simp only [mapExceptL, h a (by simp), ih fun b hb => h b (by simp [hb]), List.map_cons]

/-- C9: `list_to_str([1,2,3,4], "{n}", " and ", " and also ")` yields
`"1 and 2 and 3 and also 4"`; in general the first `n-1` elements are
formatted with the pattern and joined by `sep`, then `last_sep` and the
formatted last element are appended; and the formatter's `d` conversion
symbol applies this same function with pattern `'"{n}"'` and the default
comma separators, rendering a sequence as a double-quoted, comma-joined
list. -/
theorem c9_list_to_str :
    list_to_str (.seq (vOfInts [1, 2, 3, 4])) "{n}" " and " (some " and also ") =
      .ok "1 and 2 and 3 and also 4" ∧
    (∀ (ms : List Int) (lastn : Int) (sep lsep : String),
      list_to_str (.seq (vOfInts (ms ++ [lastn]))) "{n}" sep (some lsep) =
        .ok (String.intercalate sep (ms.map toString) ++ lsep ++ toString lastn)) ∧
    (∀ v, convert_field_d v = list_to_str v "\"{n}\"" ", " none) ∧
    convert_field_d (.seq (vOfInts [1, 2, 3])) = .ok "\"1\", \"2\", \"3\"" := by
  refine ⟨rfl, fun ms lastn sep lsep => ?_, fun v => rfl, rfl⟩
  simp only [list_to_str, toListV_vOfInts, List.map_append, List.map_cons, List.map_nil,
    List.getLast?_concat, List.dropLast_concat]
  rw [mapExceptL_ok (fmtPattern "{n}")
      (fun v => match v with
        | .vint m => toString m
        | _ => "") (ms.map Value.vint) ?_]
  · rw [fmtPattern_n lastn]
    have hfun : ((fun v => match v with
        | Value.vint m => toString m
        | _ => "") ∘ Value.vint) = (fun m : Int => toString m) := by
      funext m
      rfl
    rw [List.map_map, hfun]
  · intro a ha
    obtain ⟨m, hm, rfl⟩ := List.mem_map.1 ha
    exact fmtPattern_n m

end OneConfig
